import Mathlib

/-!
# PDFMD client — shallow embedding

A shallow embedding of the batch-orchestration and status-polling logic of
the PDFMD browser client, translated from the repository's JavaScript
sources:

* `static/js/workbench.js` — the workbench page: a `documents` cache, a
  `pollIntervals` map keyed by `"${docId}_${batchIndex}"`, `processBatch`
  and `pollBatchStatus`.
* the single-document variant (`index.js`): `handleFileSelect`,
  `handleDrop`, `pollStatus` with whole-document progress.
* the auto-processing workbench variant: `handleFileSelect`, `handleDrop`,
  `processAllBatches`, `processBatch`, `pollBatchStatus`,
  `showCompletionMessage` mutating a `currentDocument` cache.

Timer-driven polling is modelled sequentially: the stream of status
responses the server would return at the successive `setInterval` ticks is
a `List`, each element being either a parsed response or `none` when the
`fetch` (or JSON parse) threw and control reached the `catch` block.
-/

namespace PDFMD

/-- Job status values appearing in `/status/<job_id>` responses
(`pending`, `processing`, `complete`, `error`). -/
inductive JobStatusKind where
  | pending
  | processing
  | complete
  | error
deriving DecidableEq, Repr

/-- Batch status values stored in a document's batch list
(`pending`, `processing`, `completed`, `error`). -/
inductive BatchStatus where
  | pending
  | processing
  | completed
  | error
deriving DecidableEq, Repr

/-- The body of a `/status/<job_id>` response, as read by the pollers. -/
structure StatusResponse where
  status : JobStatusKind
  current_page : Nat
  total_pages : Nat
  message : String
  filename : Option String
deriving DecidableEq, Repr

/-- What one `setInterval` tick of a poller observes: `some st` when the
`fetch` of `/status/<job_id>` resolved and parsed to `st`, `none` when it
threw and control reached the `catch (error)` block. -/
abbrev TickInput := Option StatusResponse

/-- A status is terminal when it is `complete` or `error`. -/
def isTerminal (s : JobStatusKind) : Bool :=
  s == .complete || s == .error

/-- The polling period passed to `setInterval` in every poller: `500` ms. -/
def pollIntervalMs : Nat := 500

/-- Whether one tick of `workbench.js`'s `pollBatchStatus` callback clears
its interval: the `catch` block only logs (no clear); the body calls
`clearInterval` exactly in the
`status.status === 'complete' || status.status === 'error'` branch. -/
def wbTickClears (t : TickInput) : Bool :=
  match t with
  | none => false
  | some st => isTerminal st.status

/-- Whether one tick of the single-document `pollStatus` callback clears
its interval: the `catch` block only logs; `clearInterval` is called in
the `'complete'` branch and in the `'error'` branch. -/
def idxTickClears (t : TickInput) : Bool :=
  match t with
  | none => false
  | some st => isTerminal st.status

/-- The queries a poller issues, run sequentially against the stream of
responses at the successive ticks: each tick while the interval is
installed issues one query; once a tick clears the interval no further
tick fires. -/
def runPoll (clears : TickInput → Bool) : List TickInput → List TickInput
  | [] => []
  | t :: ts => t :: (if clears t then [] else runPoll clears ts)

/-- The times (ms after installation) at which a poller's queries fire:
`setInterval(cb, 500)` runs its callback first at 500 ms, then every
further 500 ms while installed. -/
def querySchedule (clears : TickInput → Bool) (resps : List TickInput) : List Nat :=
  (List.range (runPoll clears resps).length).map (fun j => pollIntervalMs * (j + 1))

/-! ## Documents and batches (client-side cache) -/

/-- One batch record of a document's `batches` list, as the client caches
it: 1-based inclusive page bounds, a status string, and the result file
set by the server once completed. -/
structure Batch where
  start : Nat
  stop : Nat
  status : BatchStatus
  job_id : Option String
  result_file : Option String
deriving DecidableEq, Repr

/-- A document record as returned by `/workbench/upload` and
`/workbench/documents` and cached by the client. -/
structure Document where
  doc_id : String
  filename : String
  total_pages : Nat
  batches : List Batch
deriving DecidableEq, Repr

/-- In-place update of one list element, the effect of the JavaScript
assignment `xs[i].f = v` on the array `xs`: out-of-range indices leave
the list unchanged (the thrown `TypeError` is swallowed by the enclosing
`catch`). -/
def modifyIdx (f : α → α) : Nat → List α → List α
  | _, [] => []
  | 0, b :: bs => f b :: bs
  | n + 1, b :: bs => b :: modifyIdx f n bs

/-- `currentDocument.batches[batchIndex].status = 'error'` — the batch
mutation in the `'error'` branch of the auto-processing variant's
`pollBatchStatus` and in the failure paths of its `processBatch`. -/
def setBatchError (batches : List Batch) (i : Nat) : List Batch :=
  modifyIdx (fun b => { b with status := .error }) i batches

/-! ## The auto-processing variant's `processBatch` and `processAllBatches` -/

/-- The status the auto-processing variant's `processBatch` writes into
`currentDocument.batches[batchIndex].status`, by dispatch outcome:
`some true` — the POST resolved with `result.success`, status becomes
`'processing'`; `some false` — it resolved unsuccessfully, status becomes
`'error'`; `none` — the `fetch` threw and the `catch` block runs, status
becomes `'error'`. The previous status is never read. -/
def processBatchStep (dispatchResult : Option Bool) : BatchStatus :=
  match dispatchResult with
  | some true => .processing
  | some false => .error
  | none => .error

/-- The direct client-side mutations of one batch's status field in the
auto-processing variant: `processBatch` (reached from `processAllBatches`
only when the batch's status is `'pending'`) writes `processBatchStep r`,
and `pollBatchStatus`'s `'error'` branch writes `'error'` into a batch
whose dispatch had set it `'processing'`. -/
inductive clientStep : BatchStatus → BatchStatus → Prop where
  | dispatch (r : Option Bool) : clientStep .pending (processBatchStep r)
  | pollError : clientStep .processing .error

/-- Forward order on batch statuses: `pending` before `processing` before
the terminal statuses `completed` and `error`. -/
def statusRank : BatchStatus → Nat
  | .pending => 0
  | .processing => 1
  | .completed => 2
  | .error => 2

/-- The indices `processAllBatches` dispatches, iterating `i` upward over
`currentDocument.batches` and calling `processBatch(doc_id, i)` exactly
when `batch.status === 'pending'`; `i0` is the index of the head of the
remaining list. -/
def dispatchLoop (i0 : Nat) : List Batch → List Nat
  | [] => []
  | b :: bs =>
      if b.status == .pending then i0 :: dispatchLoop (i0 + 1) bs
      else dispatchLoop (i0 + 1) bs

/-- `processAllBatches`: the batch indices dispatched, in loop order. -/
def processAllBatches (batches : List Batch) : List Nat :=
  dispatchLoop 0 batches

/-! ## The auto-processing variant's terminal poll handling -/

/-- The observable outcome of one terminal-status handling in the
auto-processing variant's `pollBatchStatus`. -/
structure Part0PollResult where
  currentDocument : Document
  intervalCleared : Bool
  documentsEndpointQueried : Bool
  completionSignaled : Bool
  processBtnEnabled : Bool
deriving DecidableEq, Repr

/-- One tick of the auto-processing variant's `pollBatchStatus` callback,
given the current cached document, the polled batch index, the observed
job status, and the registry snapshot `/workbench/documents` would
return. The `'complete'` branch clears the interval, fetches
`/workbench/documents`, replaces `currentDocument` with the matching
document if found, and — when every refreshed batch is `'completed'` —
re-enables the process button and shows the completion message. The
`'error'` branch clears the interval and sets only the local batch status.
Any other status leaves everything untouched. -/
def part0PollTick (cur : Document) (batchIndex : Nat) (status : JobStatusKind)
    (registry : List Document) : Part0PollResult :=
  if status == .complete then
    match registry.find? (fun d => d.doc_id == cur.doc_id) with
    | some updatedDoc =>
        let allComplete := updatedDoc.batches.all (fun b => b.status == .completed)
        { currentDocument := updatedDoc
          intervalCleared := true
          documentsEndpointQueried := true
          completionSignaled := allComplete
          processBtnEnabled := allComplete }
    | none =>
        { currentDocument := cur
          intervalCleared := true
          documentsEndpointQueried := true
          completionSignaled := false
          processBtnEnabled := false }
  else if status == .error then
    { currentDocument := { cur with batches := setBatchError cur.batches batchIndex }
      intervalCleared := true
      documentsEndpointQueried := false
      completionSignaled := false
      processBtnEnabled := false }
  else
    { currentDocument := cur
      intervalCleared := false
      documentsEndpointQueried := false
      completionSignaled := false
      processBtnEnabled := false }

/-- The effect of one `workbench.js` `pollBatchStatus` tick on its
interval and on the shared `documents` cache: the
`'complete' || 'error'` branch clears the interval and calls
`loadDocuments()` (a fetch of `/workbench/documents`); the `'processing'`
branch only updates the progress bar. -/
structure WbTickEffect where
  cleared : Bool
  reloadedDocuments : Bool
deriving DecidableEq, Repr

/-- `workbench.js` `pollBatchStatus`, dispatch on the observed status. -/
def wbPollTickEffect (s : JobStatusKind) : WbTickEffect :=
  if s == .processing then { cleared := false, reloadedDocuments := false }
  else if s == .complete || s == .error then { cleared := true, reloadedDocuments := true }
  else { cleared := false, reloadedDocuments := false }

/-! ## The `pollIntervals` map -/

/-- A timer handle as `setInterval` returns it: its numeric id, and
whether it is still firing (`clearInterval` stops it). -/
structure Timer where
  id : Nat
  active : Bool
deriving DecidableEq, Repr

/-- The global `pollIntervals` object: one slot per poll-id string. -/
def PollIntervals : Type := String → Option Timer

/-- The key `pollBatchStatus` stores its timer under:
`` const pollId = `${docId}_${batchIndex}` ``. -/
def mkPollId (docId : String) (batchIndex : Nat) : String :=
  docId ++ "_" ++ toString batchIndex

/-- `pollIntervals[pollId] = setInterval(...)`: a fresh, running timer is
stored under `k`; every other slot is untouched. -/
def installTimer (m : PollIntervals) (k : String) (tid : Nat) : PollIntervals :=
  fun q => if q = k then some { id := tid, active := true } else m q

/-- `clearInterval(pollIntervals[k])`: the timer stored under `k` (if
any) stops firing; the entry itself is not deleted, and every other slot
is untouched. -/
def clearTimer (m : PollIntervals) (k : String) : PollIntervals :=
  fun q => if q = k then (m k).map (fun t => { t with active := false }) else m q

/-! ## File selection -/

/-- A file as the drop/choose handlers see it (`name` and MIME `type`). -/
structure UploadFile where
  name : String
  mime : String
deriving DecidableEq, Repr

/-- The client state the file-selection handlers touch: the module-level
`selectedFile`, the file-name label, and the process button's `disabled`
flag. -/
structure FileSelectState where
  selectedFile : Option UploadFile
  shownFileName : Option String
  processBtnDisabled : Bool
deriving DecidableEq, Repr

/-- `handleFileSelect(event)`: reads `event.target.files[0]`; only when a
file is present and `file.type === 'application/pdf'` does it store the
file, show its name and enable the process button — otherwise it falls
through and changes nothing. Identical in both front-end variants. -/
def handleFileSelect (st : FileSelectState) (file : Option UploadFile) : FileSelectState :=
  match file with
  | some f =>
      if f.mime == "application/pdf" then
        { selectedFile := some f, shownFileName := some f.name, processBtnDisabled := false }
      else st
  | none => st

/-- `handleDrop(event)`: reads `event.dataTransfer.files`; only when
`files.length > 0 && files[0].type === 'application/pdf'` does it store
`files[0]`, show its name and enable the process button — otherwise it
changes nothing. Identical in both front-end variants. -/
def handleDrop (st : FileSelectState) (files : List UploadFile) : FileSelectState :=
  match files with
  | [] => st
  | f :: _ =>
      if f.mime == "application/pdf" then
        { selectedFile := some f, shownFileName := some f.name, processBtnDisabled := false }
      else st

/-! ## The single-document variant's `pollStatus` -/

/-- The progress-bar width the single-document `pollStatus` sets while
`status.status === 'processing'`:
`(status.current_page / status.total_pages) * 100` percent. -/
def idxProcessingProgress (st : StatusResponse) : ℚ :=
  ((st.current_page : ℚ) / (st.total_pages : ℚ)) * 100

/-- The UI effect of one single-document `pollStatus` tick. -/
inductive IdxEffect where
  | progress (widthPct : ℚ) (message : String) (curPage totalPages : Nat)
  | success (filename : Option String)
  | failure (message : String)
  | noop
deriving DecidableEq, Repr

/-- One tick of the single-document `pollStatus`: the `'processing'`
branch sets the progress bar to `current_page / total_pages` of the whole
document (as a percentage) and writes the message and page counter; the
`'complete'` branch records the result filename and shows success; the
`'error'` branch shows the error message; a thrown fetch or any other
status changes nothing. -/
def idxPollEffect (t : TickInput) : IdxEffect :=
  match t with
  | none => .noop
  | some st =>
      if st.status == .processing then
        .progress (idxProcessingProgress st) st.message st.current_page st.total_pages
      else if st.status == .complete then .success st.filename
      else if st.status == .error then .failure st.message
      else .noop

/-! ## Sample values used by closed witness theorems -/

/-- A `'processing'` status response. -/
def sampleProcessing : StatusResponse :=
  { status := .processing, current_page := 3, total_pages := 10
    message := "Processing page 3 of 10", filename := none }

/-- A `'complete'` status response. -/
def sampleComplete : StatusResponse :=
  { status := .complete, current_page := 10, total_pages := 10
    message := "Done", filename := some "out.md" }

/-- A concrete response stream: one processing tick, then terminal. -/
def sampleTicks : List TickInput := [some sampleProcessing, some sampleComplete]

/-- A batch still awaiting dispatch. -/
def samplePendingBatch : Batch :=
  { start := 1, stop := 10, status := .pending, job_id := none, result_file := none }

/-- A batch whose job finished. -/
def sampleDoneBatch : Batch :=
  { start := 11, stop := 20, status := .completed, job_id := some "job-0"
    result_file := some "batch0.md" }

/-- A batch with a live job. -/
def sampleLiveBatch : Batch :=
  { start := 1, stop := 10, status := .processing, job_id := some "job-1"
    result_file := none }

/-- A document whose only batch is mid-processing. -/
def sampleProcessingDoc : Document :=
  { doc_id := "d1", filename := "a.pdf", total_pages := 10
    batches := [sampleLiveBatch] }

/-- A document all of whose batches are completed. -/
def sampleCompletedDoc : Document :=
  { doc_id := "d1", filename := "a.pdf", total_pages := 20
    batches := [sampleDoneBatch] }

/-- A poll-interval map with running timers under two keys. -/
def samplePollMap : PollIntervals := fun q =>
  if q = "d1_0" then some { id := 7, active := true }
  else if q = "d1_1" then some { id := 8, active := true }
  else none

/-- A non-PDF file. -/
def sampleImage : UploadFile := { name := "photo.png", mime := "image/png" }

/-- The page's initial selection state: nothing selected, button disabled. -/
def initialSelectState : FileSelectState :=
  { selectedFile := none, shownFileName := none, processBtnDisabled := true }

/-! ## Shared lemmas about the poll loop -/

/-- The two pollers' clear conditions coincide tick-wise. -/
theorem idxTickClears_eq_wb (t : TickInput) : idxTickClears t = wbTickClears t := by
  cases t <;> rfl

/-- If the first tick whose observation clears the interval is tick `i`,
the loop issues queries at exactly the ticks `0 … i`. -/
theorem runPoll_eq_take (clears : TickInput → Bool) (resps : List TickInput) (i : Nat)
    (hi : i < resps.length)
    (hbefore : ∀ j (hj : j < i), clears (resps.get ⟨j, hj.trans hi⟩) = false)
    (hterm : clears (resps.get ⟨i, hi⟩) = true) :
    runPoll clears resps = resps.take (i + 1) := by
  induction resps generalizing i with
  | nil => simp at hi
  | cons t ts ih =>
      cases i with
      | zero =>
          have h0 : clears t = true := hterm
          simp [runPoll, h0]
      | succ n =>
          have h0 : clears t = false := hbefore 0 (Nat.succ_pos n)
          have hn : n < ts.length := by simpa using hi
          have hb : ∀ j (hj : j < n), clears (ts.get ⟨j, hj.trans hn⟩) = false :=
            fun j hj => hbefore (j + 1) (Nat.succ_lt_succ hj)
          have ht : clears (ts.get ⟨n, hn⟩) = true := hterm
          simp [runPoll, h0, ih n hn hb ht]

/-! ## C1 -/

/-- C1: for every polled job, the poller issues one status query per
500 ms tick and clears its interval exactly at the first tick whose
observed status is terminal (`complete` or `error`): the queries issued
are precisely those of ticks `0 … i` where `i` is the first terminal
observation, so no further query is issued after it, in both
`workbench.js`'s `pollBatchStatus` and the single-document `pollStatus`. -/
theorem poll_clears_exactly_at_first_terminal
    (resps : List TickInput) (i : Nat) (hi : i < resps.length)
    (hbefore : ∀ j (hj : j < i), wbTickClears (resps.get ⟨j, hj.trans hi⟩) = false)
    (hterm : wbTickClears (resps.get ⟨i, hi⟩) = true) :
    runPoll wbTickClears resps = resps.take (i + 1) ∧
    runPoll idxTickClears resps = resps.take (i + 1) ∧
    (runPoll wbTickClears resps).length = i + 1 ∧
    querySchedule wbTickClears resps = (List.range (i + 1)).map (fun j => 500 * (j + 1)) := by
  have hwb := runPoll_eq_take wbTickClears resps i hi hbefore hterm
  have hidx := runPoll_eq_take idxTickClears resps i hi
    (fun j hj => by rw [idxTickClears_eq_wb]; exact hbefore j hj)
    (by rw [idxTickClears_eq_wb]; exact hterm)
  have hlen : (runPoll wbTickClears resps).length = i + 1 := by
    rw [hwb, List.length_take]; omega
  refine ⟨hwb, hidx, hlen, ?_⟩
  rw [querySchedule, hlen]
  rfl

/-- C1 witness: on the stream `[processing, complete]` the poller issues
exactly the two queries at 500 ms and 1000 ms and stops at the first
terminal observation. -/
theorem poll_clears_exactly_at_first_terminal_witness :
    runPoll wbTickClears sampleTicks = sampleTicks.take 2 ∧
    runPoll idxTickClears sampleTicks = sampleTicks.take 2 ∧
    (runPoll wbTickClears sampleTicks).length = 2 ∧
    querySchedule wbTickClears sampleTicks = (List.range 2).map (fun j => 500 * (j + 1)) :=
  poll_clears_exactly_at_first_terminal sampleTicks 1 (by decide)
    (fun j hj => by
      have hj0 : j = 0 := by omega
      subst hj0; rfl)
    (by rfl)

/-! ## C10 -/

/-- C10: a transport failure never terminates polling — a tick whose
fetch threw does not clear the interval, the loop continues with the next
tick, and a tick clears the interval exactly when its response body holds
a terminal status (`complete` or `error`), in both pollers. -/
theorem transport_failure_keeps_polling :
    wbTickClears none = false ∧ idxTickClears none = false ∧
    (∀ ts, runPoll wbTickClears (none :: ts) = none :: runPoll wbTickClears ts) ∧
    (∀ ts, runPoll idxTickClears (none :: ts) = none :: runPoll idxTickClears ts) ∧
    (∀ t, wbTickClears t = true ↔
      ∃ st, t = some st ∧ (st.status = .complete ∨ st.status = .error)) ∧
    (∀ t, idxTickClears t = true ↔
      ∃ st, t = some st ∧ (st.status = .complete ∨ st.status = .error)) := by
  refine ⟨rfl, rfl, fun ts => by simp [runPoll, wbTickClears],
    fun ts => by simp [runPoll, idxTickClears], ?_, ?_⟩ <;>
  · intro t
    cases t with
    | none => simp [wbTickClears, idxTickClears]
    | some st =>
        cases h : st.status <;>
          simp [wbTickClears, idxTickClears, isTerminal, h]

/-- C10 witness: a failed fetch leaves the poller querying on the next
tick, and a `complete` response clears. -/
theorem transport_failure_keeps_polling_witness :
    runPoll wbTickClears (none :: sampleTicks) = none :: runPoll wbTickClears sampleTicks ∧
    wbTickClears (some sampleComplete) = true :=
  ⟨transport_failure_keeps_polling.2.2.1 sampleTicks,
   (transport_failure_keeps_polling.2.2.2.2.1 (some sampleComplete)).mpr
     ⟨sampleComplete, rfl, Or.inl rfl⟩⟩

/-! ## C2 -/

/-- C2 counterexample: the dispatch-failure path of the auto-processing
variant's `processBatch` moves a `pending` batch directly to `error`,
never passing through `processing` — refuting the claim that a batch
never reaches a terminal status without first having been `processing`. -/
theorem pending_reaches_error_without_processing :
    clientStep .pending .error ∧ BatchStatus.pending ≠ BatchStatus.processing :=
  ⟨clientStep.dispatch (some false), by decide⟩

/-- C2 (amended): every direct client-side mutation of a batch's status
moves it strictly forward in the order
`pending < processing < {completed, error}` (never backward), with
`processing` entered only from `pending`; but `error` is entered either
from `processing` (poll observed a job error) or directly from `pending`
(the dispatch-failure paths of `processBatch`), skipping `processing` in
the latter case. -/
theorem clientStep_moves_forward (a b : BatchStatus) (h : clientStep a b) :
    statusRank a < statusRank b ∧
    (b = .processing → a = .pending) ∧
    (b = .error → a = .pending ∨ a = .processing) ∧
    b ≠ .pending := by
  cases h with
  | dispatch r =>
      cases r with
      | none => exact ⟨by decide, by decide, fun _ => Or.inl rfl, by decide⟩
      | some v =>
          cases v with
          | false => exact ⟨by decide, by decide, fun _ => Or.inl rfl, by decide⟩
          | true => exact ⟨by decide, fun _ => rfl, by decide, by decide⟩
  | pollError => exact ⟨by decide, by decide, fun _ => Or.inr rfl, by decide⟩

/-- C2 witness: the successful-dispatch step `pending → processing`
satisfies the forward-order property. -/
theorem clientStep_moves_forward_witness :
    statusRank .pending < statusRank .processing ∧
    (BatchStatus.processing = .processing → BatchStatus.pending = .pending) ∧
    (BatchStatus.processing = .error →
      BatchStatus.pending = .pending ∨ BatchStatus.pending = .processing) ∧
    BatchStatus.processing ≠ .pending :=
  clientStep_moves_forward .pending .processing (clientStep.dispatch (some true))

/-! ## Shared lemmas about `modifyIdx` and `dispatchLoop` -/

/-- `modifyIdx` leaves every other index untouched. -/
theorem modifyIdx_getElem?_ne (f : α → α) (i j : Nat) (l : List α) (hne : j ≠ i) :
    (modifyIdx f i l)[j]? = l[j]? := by
  induction l generalizing i j with
  | nil => simp [modifyIdx]
  | cons a l ih =>
      cases i with
      | zero =>
          cases j with
          | zero => exact absurd rfl hne
          | succ m => simp [modifyIdx]
      | succ n =>
          cases j with
          | zero => simp [modifyIdx]
          | succ m => simpa [modifyIdx] using ih n m (by omega)

/-- `modifyIdx` applies `f` at the modified index. -/
theorem modifyIdx_getElem?_same (f : α → α) (i : Nat) (l : List α) :
    (modifyIdx f i l)[i]? = (l[i]?).map f := by
  induction l generalizing i with
  | nil => cases i <;> simp [modifyIdx]
  | cons a l ih =>
      cases i with
      | zero => simp [modifyIdx]
      | succ n => simpa [modifyIdx] using ih n

/-- Membership in the dispatch loop started at offset `k`: exactly the
absolute indices of `pending` batches. -/
theorem mem_dispatchLoop (bs : List Batch) : ∀ (k j : Nat),
    j ∈ dispatchLoop k bs ↔
      k ≤ j ∧ ∃ b, bs[j - k]? = some b ∧ b.status = .pending := by
  induction bs with
  | nil => intro k j; simp [dispatchLoop]
  | cons b bs ih =>
      intro k j
      rw [dispatchLoop]
      have hidx : k < j → ((b :: bs)[j - k]? = bs[j - (k + 1)]?) := by
        intro hlt
        have h1 : j - k = (j - (k + 1)) + 1 := by omega
        rw [h1, List.getElem?_cons_succ]
      by_cases hb : b.status = .pending
      · rw [if_pos (by simp [hb])]
        rw [List.mem_cons, ih (k + 1) j]
        constructor
        · rintro (rfl | ⟨hk, b', hget, hp⟩)
          · exact ⟨le_refl _, b, by simp, hb⟩
          · exact ⟨by omega, b', by rw [hidx (by omega)]; exact hget, hp⟩
        · rintro ⟨hk, b', hget, hp⟩
          rcases eq_or_lt_of_le hk with heq | hlt
          · exact Or.inl heq.symm
          · exact Or.inr ⟨by omega, b', by rw [← hidx hlt]; exact hget, hp⟩
      · rw [if_neg (by simp [hb])]
        rw [ih (k + 1) j]
        constructor
        · rintro ⟨hk, b', hget, hp⟩
          exact ⟨by omega, b', by rw [hidx (by omega)]; exact hget, hp⟩
        · rintro ⟨hk, b', hget, hp⟩
          rcases eq_or_lt_of_le hk with heq | hlt
          · subst heq
            rw [Nat.sub_self, List.getElem?_cons_zero] at hget
            cases hget
            exact absurd hp hb
          · exact ⟨by omega, b', by rw [← hidx hlt]; exact hget, hp⟩

/-- Every dispatched index is at least the loop offset. -/
theorem dispatchLoop_lower_bound (bs : List Batch) (k j : Nat)
    (h : j ∈ dispatchLoop k bs) : k ≤ j :=
  ((mem_dispatchLoop bs k j).mp h).1

/-- The dispatch loop emits indices in strictly ascending order. -/
theorem dispatchLoop_sorted (bs : List Batch) : ∀ k, List.Sorted (· < ·) (dispatchLoop k bs) := by
  induction bs with
  | nil => intro k; simp [dispatchLoop]
  | cons b bs ih =>
      intro k
      rw [dispatchLoop]
      by_cases hb : b.status == .pending
      · rw [if_pos hb]
        refine List.sorted_cons.mpr ⟨fun j hj => ?_, ih (k + 1)⟩
        have := dispatchLoop_lower_bound bs (k + 1) j hj
        omega
      · rw [if_neg hb]
        exact ih (k + 1)

/-! ## C5 -/

/-- C5: the automatic pass after upload dispatches exactly the batches
whose status is `pending`, in strictly ascending batch-index order — a
batch whose status is `processing`, `completed` or `error` is never
dispatched. -/
theorem processAllBatches_dispatches_pending_in_order (batches : List Batch) :
    List.Sorted (· < ·) (processAllBatches batches) ∧
    ∀ i, i ∈ processAllBatches batches ↔
      ∃ b, batches[i]? = some b ∧ b.status = .pending := by
  refine ⟨dispatchLoop_sorted batches 0, fun i => ?_⟩
  rw [processAllBatches, mem_dispatchLoop batches 0 i]
  simp

/-- C5 witness: on `[pending, completed]` the pass dispatches index 0 and
not index 1. -/
theorem processAllBatches_dispatches_pending_in_order_witness :
    0 ∈ processAllBatches [samplePendingBatch, sampleDoneBatch] ∧
    ¬ 1 ∈ processAllBatches [samplePendingBatch, sampleDoneBatch] := by
  have h := processAllBatches_dispatches_pending_in_order [samplePendingBatch, sampleDoneBatch]
  refine ⟨(h.2 0).mpr ⟨samplePendingBatch, rfl, rfl⟩, fun hmem => ?_⟩
  rcases (h.2 1).mp hmem with ⟨b, hb, hp⟩
  have hb' : b = sampleDoneBatch := by
    have : some sampleDoneBatch = some b := by
      rw [← hb]; rfl
    exact (Option.some.injEq _ _ ▸ this).symm
  subst hb'
  exact absurd hp (by decide)

/-! ## C3 -/

/-- C3: when the poller's `complete`-branch reconciliation finds the
refreshed document in the registry snapshot, the document-level
completion event (completion message with the Download All link) is
signaled if and only if every batch of the refreshed current document is
`completed`, and the process button is re-enabled exactly when the event
is signaled. -/
theorem completion_signaled_iff_all_completed
    (cur : Document) (batchIndex : Nat) (registry : List Document) (upd : Document)
    (hfind : registry.find? (fun d => d.doc_id == cur.doc_id) = some upd) :
    (part0PollTick cur batchIndex .complete registry).currentDocument = upd ∧
    ((part0PollTick cur batchIndex .complete registry).completionSignaled = true ↔
      ∀ b ∈ upd.batches, b.status = .completed) ∧
    (part0PollTick cur batchIndex .complete registry).processBtnEnabled =
      (part0PollTick cur batchIndex .complete registry).completionSignaled := by
  simp [part0PollTick, hfind, List.all_eq_true]

/-- C3 witness: a registry whose only document has all batches completed
signals completion. -/
theorem completion_signaled_iff_all_completed_witness :
    (part0PollTick sampleCompletedDoc 0 .complete [sampleCompletedDoc]).currentDocument =
      sampleCompletedDoc ∧
    ((part0PollTick sampleCompletedDoc 0 .complete [sampleCompletedDoc]).completionSignaled =
        true ↔
      ∀ b ∈ sampleCompletedDoc.batches, b.status = .completed) ∧
    (part0PollTick sampleCompletedDoc 0 .complete [sampleCompletedDoc]).processBtnEnabled =
      (part0PollTick sampleCompletedDoc 0 .complete [sampleCompletedDoc]).completionSignaled :=
  completion_signaled_iff_all_completed sampleCompletedDoc 0 [sampleCompletedDoc]
    sampleCompletedDoc (by decide)

/-! ## C4 -/

/-- C4 counterexample: `error` is a terminal status, yet the
auto-processing variant's poller does not query the documents endpoint in
its `error` branch — the cached batch list is refreshed from the registry
only on `complete`, refuting the claim that the refresh happens on both
terminal statuses. -/
theorem error_branch_skips_registry_refresh :
    isTerminal .error = true ∧
    (part0PollTick sampleProcessingDoc 0 .error [sampleProcessingDoc]).intervalCleared = true ∧
    (part0PollTick sampleProcessingDoc 0 .error
        [sampleProcessingDoc]).documentsEndpointQueried = false := by
  decide

/-- C4 (amended): `workbench.js`'s poller clears its interval and reloads
the cached document list on both terminal statuses (`complete` and
`error`) and on no other status; the auto-processing variant's poller
queries the documents endpoint on `complete` but not on `error`, where it
only mutates the local batch status. -/
theorem registry_refresh_on_terminal (cur : Document) (i : Nat) (registry : List Document) :
    wbPollTickEffect .complete = { cleared := true, reloadedDocuments := true } ∧
    wbPollTickEffect .error = { cleared := true, reloadedDocuments := true } ∧
    wbPollTickEffect .processing = { cleared := false, reloadedDocuments := false } ∧
    wbPollTickEffect .pending = { cleared := false, reloadedDocuments := false } ∧
    (part0PollTick cur i .complete registry).documentsEndpointQueried = true ∧
    (part0PollTick cur i .error registry).documentsEndpointQueried = false := by
  refine ⟨rfl, rfl, rfl, rfl, ?_, rfl⟩
  rw [part0PollTick]
  cases h : registry.find? (fun d => d.doc_id == cur.doc_id) <;> simp [h]

/-! ## C6 -/

/-- C6: when a polled job reaches `error`, only the owning batch's status
field is set to `error`: the owning batch's page bounds, job id and
result file are preserved, every sibling batch is left entirely
unchanged, the document's other fields are untouched, the documents
endpoint is not queried, and clearing that job's poll interval leaves
every other key of the interval map unchanged. -/
theorem job_error_touches_only_owning_batch
    (cur : Document) (i : Nat) (b : Batch) (registry : List Document)
    (hb : cur.batches[i]? = some b)
    (m : PollIntervals) (k q : String) (hq : q ≠ k) :
    (part0PollTick cur i .error registry).currentDocument.doc_id = cur.doc_id ∧
    (part0PollTick cur i .error registry).currentDocument.filename = cur.filename ∧
    (part0PollTick cur i .error registry).currentDocument.total_pages = cur.total_pages ∧
    (part0PollTick cur i .error registry).currentDocument.batches[i]? =
      some { b with status := .error } ∧
    (∀ j, j ≠ i →
      (part0PollTick cur i .error registry).currentDocument.batches[j]? =
        cur.batches[j]?) ∧
    (part0PollTick cur i .error registry).intervalCleared = true ∧
    (part0PollTick cur i .error registry).documentsEndpointQueried = false ∧
    clearTimer m k q = m q := by
  refine ⟨rfl, rfl, rfl, ?_, fun j hj => ?_, rfl, rfl, ?_⟩
  · show (setBatchError cur.batches i)[i]? = _
    rw [setBatchError, modifyIdx_getElem?_same, hb]
    rfl
  · show (setBatchError cur.batches i)[j]? = _
    rw [setBatchError, modifyIdx_getElem?_ne _ _ _ _ hj]
  · simp [clearTimer, hq]

/-- C6 witness: on the one-batch document with a live job, the error
branch sets that batch to `error`, keeps its other fields, and clearing
the poll key `d1_0` leaves the timer under `d1_1`. -/
theorem job_error_touches_only_owning_batch_witness :
    (part0PollTick sampleProcessingDoc 0 .error []).currentDocument.doc_id =
      sampleProcessingDoc.doc_id ∧
    (part0PollTick sampleProcessingDoc 0 .error []).currentDocument.filename =
      sampleProcessingDoc.filename ∧
    (part0PollTick sampleProcessingDoc 0 .error []).currentDocument.total_pages =
      sampleProcessingDoc.total_pages ∧
    (part0PollTick sampleProcessingDoc 0 .error []).currentDocument.batches[0]? =
      some { sampleLiveBatch with status := .error } ∧
    (∀ j, j ≠ 0 →
      (part0PollTick sampleProcessingDoc 0 .error []).currentDocument.batches[j]? =
        sampleProcessingDoc.batches[j]?) ∧
    (part0PollTick sampleProcessingDoc 0 .error []).intervalCleared = true ∧
    (part0PollTick sampleProcessingDoc 0 .error []).documentsEndpointQueried = false ∧
    clearTimer samplePollMap "d1_0" "d1_1" = samplePollMap "d1_1" :=
  job_error_touches_only_owning_batch sampleProcessingDoc 0 sampleLiveBatch [] rfl
    samplePollMap "d1_0" "d1_1" (by decide)

/-! ## C7 -/

/-- C7: in the single-document variant, a `processing` response sets the
progress bar to `current_page / total_pages` of the whole document as a
percentage — the displayed fraction times `total_pages` is
`current_page · 100`, a ratio over the whole document rather than over a
sub-range. -/
theorem whole_document_progress (st : StatusResponse)
    (h : st.status = .processing) (hpos : 0 < st.total_pages) :
    idxPollEffect (some st) =
      .progress (((st.current_page : ℚ) / (st.total_pages : ℚ)) * 100)
        st.message st.current_page st.total_pages ∧
    idxProcessingProgress st * (st.total_pages : ℚ) = (st.current_page : ℚ) * 100 := by
  have ht : (st.total_pages : ℚ) ≠ 0 := Nat.cast_ne_zero.mpr hpos.ne'
  refine ⟨by simp [idxPollEffect, h, idxProcessingProgress], ?_⟩
  rw [idxProcessingProgress]
  field_simp

/-- C7 witness: a `processing` response at page 3 of 10 displays the
whole-document ratio 3/10. -/
theorem whole_document_progress_witness :
    idxPollEffect (some sampleProcessing) =
      .progress
        (((sampleProcessing.current_page : ℚ) / (sampleProcessing.total_pages : ℚ)) * 100)
        sampleProcessing.message sampleProcessing.current_page
        sampleProcessing.total_pages ∧
    idxProcessingProgress sampleProcessing * (sampleProcessing.total_pages : ℚ) =
      (sampleProcessing.current_page : ℚ) * 100 :=
  whole_document_progress sampleProcessing rfl (by decide)

/-! ## C8 -/

/-- C8: a selected or dropped file whose MIME type is not
`application/pdf` leaves the handlers' state entirely unchanged — the
stored `selectedFile` is untouched and a disabled process button stays
disabled, so no upload or processing state is created for a non-PDF
input, in both front-end variants' `handleFileSelect` and `handleDrop`. -/
theorem non_pdf_input_rejected (st : FileSelectState) (f : UploadFile)
    (rest : List UploadFile) (h : f.mime ≠ "application/pdf") :
    handleFileSelect st (some f) = st ∧
    handleDrop st (f :: rest) = st ∧
    (handleFileSelect st (some f)).selectedFile = st.selectedFile ∧
    (handleDrop st (f :: rest)).selectedFile = st.selectedFile ∧
    (st.processBtnDisabled = true →
      (handleFileSelect st (some f)).processBtnDisabled = true ∧
      (handleDrop st (f :: rest)).processBtnDisabled = true) := by
  have hb : (f.mime == "application/pdf") = false := beq_eq_false_iff_ne.mpr h
  simp [handleFileSelect, handleDrop, hb]

/-- C8 witness: dropping or choosing `photo.png` (`image/png`) on the
fresh page changes nothing and the button stays disabled. -/
theorem non_pdf_input_rejected_witness :
    handleFileSelect initialSelectState (some sampleImage) = initialSelectState ∧
    handleDrop initialSelectState [sampleImage] = initialSelectState ∧
    (handleFileSelect initialSelectState (some sampleImage)).selectedFile =
      initialSelectState.selectedFile ∧
    (handleDrop initialSelectState [sampleImage]).selectedFile =
      initialSelectState.selectedFile ∧
    (initialSelectState.processBtnDisabled = true →
      (handleFileSelect initialSelectState (some sampleImage)).processBtnDisabled = true ∧
      (handleDrop initialSelectState [sampleImage]).processBtnDisabled = true) :=
  non_pdf_input_rejected initialSelectState sampleImage [] (by decide)

/-! ## C9 -/

/-- C9: the poll-interval map is keyed by the string
`` `${docId}_${batchIndex}` ``; installing a poller's timer stores a
fresh running timer under its own key and leaves every other key's slot
unchanged, and clearing one key's timer stops only that timer — every
other key's stored timer is untouched. -/
theorem poll_timers_independent
    (m : PollIntervals) (docId : String) (batchIndex : Nat) (tid : Nat) (q : String)
    (hq : q ≠ mkPollId docId batchIndex) :
    installTimer m (mkPollId docId batchIndex) tid (mkPollId docId batchIndex) =
      some { id := tid, active := true } ∧
    installTimer m (mkPollId docId batchIndex) tid q = m q ∧
    clearTimer m (mkPollId docId batchIndex) q = m q ∧
    clearTimer m (mkPollId docId batchIndex) (mkPollId docId batchIndex) =
      (m (mkPollId docId batchIndex)).map (fun t => { t with active := false }) := by
  refine ⟨?_, ?_, ?_, ?_⟩ <;> simp [installTimer, clearTimer, hq]

/-- C9 witness: installing under key `d1_1` and clearing it leaves the
running timer stored under `d1_0` unchanged. -/
theorem poll_timers_independent_witness :
    installTimer samplePollMap (mkPollId "d1" 1) 9 (mkPollId "d1" 1) =
      some { id := 9, active := true } ∧
    installTimer samplePollMap (mkPollId "d1" 1) 9 "d1_0" = samplePollMap "d1_0" ∧
    clearTimer samplePollMap (mkPollId "d1" 1) "d1_0" = samplePollMap "d1_0" ∧
    clearTimer samplePollMap (mkPollId "d1" 1) (mkPollId "d1" 1) =
      (samplePollMap (mkPollId "d1" 1)).map (fun t => { t with active := false }) :=
  poll_timers_independent samplePollMap "d1" 1 9 "d1_0" (by decide)

end PDFMD
